import Mathlib

/-!
Verification of the pinset merging and record-store logic of a Filebase/IPFS
mirroring tool (`filebase_pin_api.py`, `backup_filebase_locally.py`).

Modelling conventions:
* Timestamps are abstracted as integers.  The API date strings all carry the
  same fixed UTC offset, so the lexicographic minimum/maximum taken by the code
  over `created` strings agrees with the chronological order; entries therefore
  carry their `created` timestamp directly as an `Int`.  One second is
  `seconds 1 = 1000000` units, matching the microsecond resolution of the
  stored format.
* Python exceptions are modelled with `Except Err`; an uncaught exception is an
  `Except.error`.
* The JSON record file is modelled by `FileState`: missing file, undecodable
  file, or a parsed document (an association list keyed by bucket name).
* Mutable Python objects (for the aliasing claim about `save_pinset_to_json`)
  are modelled by an explicit heap mapping object ids to values.
-/

/-- One second of timestamp units (`timedelta(seconds := n)`). -/
def seconds (n : Int) : Int := n * 1000000

/-- The `pin` object inside one API result (`item["pin"]`); only the `cid`
field is read by the code under verification. -/
structure PinData where
  cid : String
deriving DecidableEq

/-- One entry of an API listing page (`item` in `new_items["results"]`); the
code reads `item["created"]` (modelled as an `Int` timestamp) and
`item["pin"]["cid"]`. -/
structure PinResult where
  created : Int
  pin : PinData
deriving DecidableEq

/-- The response of one `get_list` call: the server's remaining count and the
page of results (`GetPinsResponse` in `filebase_datatypes.py`). -/
structure GetPinsResponse where
  count : Int
  results : List PinResult
deriving DecidableEq

/-- The in-memory pin set (`PinSetType` in `filebase_datatypes.py`), with
dates held as (abstract integer) datetimes. -/
structure PinSet where
  count : Int
  cids : List String
  last_date : Int
  first_date : Int
deriving DecidableEq

/-- `FilebasePinAPI._append_to_pinset`: extend the cid list with the page's
cids, deduplicate (`list(set(...))`, modelled by the deterministic
`List.dedup`), recompute the count, and widen the date bounds to cover the
minimum/maximum `created` timestamp of a non-empty page. -/
def append_to_pinset (pin_set : PinSet) (new_items : GetPinsResponse) : PinSet :=
  let extended := pin_set.cids ++ new_items.results.map (fun item => item.pin.cid)
  let unique_cids := extended.dedup
  let p1 : PinSet := { pin_set with cids := unique_cids, count := (unique_cids.length : Int) }
  match new_items.results with
  | [] => p1
  | item :: rest =>
    let first_date := (rest.map (fun it => it.created)).foldl min item.created
    let last_date := (rest.map (fun it => it.created)).foldl max item.created
    let p2 := if last_date > pin_set.last_date then { p1 with last_date := last_date } else p1
    if first_date < pin_set.first_date then { p2 with first_date := first_date } else p2

/-- The merged cid list produced by one append, before deduplication. -/
def mergedCids (pin_set : PinSet) (new_items : GetPinsResponse) : List String :=
  pin_set.cids ++ new_items.results.map (fun item => item.pin.cid)

theorem append_eq_nil (pin_set : PinSet) (new_items : GetPinsResponse)
    (h : new_items.results = []) :
    append_to_pinset pin_set new_items =
      { count := ((mergedCids pin_set new_items).dedup.length : Int),
        cids := (mergedCids pin_set new_items).dedup,
        last_date := pin_set.last_date,
        first_date := pin_set.first_date } := by
  simp only [append_to_pinset, mergedCids, h]

theorem append_eq_cons (pin_set : PinSet) (new_items : GetPinsResponse)
    (item : PinResult) (rest : List PinResult)
    (h : new_items.results = item :: rest) :
    append_to_pinset pin_set new_items =
      { count := ((mergedCids pin_set new_items).dedup.length : Int),
        cids := (mergedCids pin_set new_items).dedup,
        last_date :=
          if (rest.map (fun it => it.created)).foldl max item.created > pin_set.last_date
          then (rest.map (fun it => it.created)).foldl max item.created
          else pin_set.last_date,
        first_date :=
          if (rest.map (fun it => it.created)).foldl min item.created < pin_set.first_date
          then (rest.map (fun it => it.created)).foldl min item.created
          else pin_set.first_date } := by
  simp only [append_to_pinset, mergedCids, h]
  split_ifs <;> rfl

theorem append_cids (pin_set : PinSet) (new_items : GetPinsResponse) :
    (append_to_pinset pin_set new_items).cids = (mergedCids pin_set new_items).dedup := by
  cases h : new_items.results with
  | nil => rw [append_eq_nil pin_set new_items h]
  | cons item rest => rw [append_eq_cons pin_set new_items item rest h]

theorem foldl_max_mono {a b : Int} (l : List Int) (h : a ≤ b) :
    l.foldl max a ≤ l.foldl max b := by
  induction l generalizing a b with
  | nil => exact h
  | cons c t ih => exact ih (max_le_max h le_rfl)

theorem foldl_min_le_foldl_max (l : List Int) (a : Int) :
    l.foldl min a ≤ l.foldl max a := by
  induction l generalizing a with
  | nil => exact le_rfl
  | cons c t ih =>
    calc t.foldl min (min a c) ≤ t.foldl max (min a c) := ih (min a c)
    _ ≤ t.foldl max (max a c) := foldl_max_mono t (le_trans (min_le_left a c) (le_max_left a c))

/-- C5: Bounds are monotone under merging: after `_append_to_pinset`,
`first_date` never increases and `last_date` never decreases relative to the
input pin set. -/
theorem append_to_pinset_monotone_bounds (pin_set : PinSet) (new_items : GetPinsResponse) :
    (append_to_pinset pin_set new_items).first_date ≤ pin_set.first_date ∧
      pin_set.last_date ≤ (append_to_pinset pin_set new_items).last_date := by
  cases h : new_items.results with
  | nil => rw [append_eq_nil pin_set new_items h]; exact ⟨le_rfl, le_rfl⟩
  | cons item rest =>
    rw [append_eq_cons pin_set new_items item rest h]
    constructor
    · dsimp only
      split_ifs with hf
      · exact le_of_lt hf
      · exact le_rfl
    · dsimp only
      split_ifs with hl
      · exact le_of_lt hl
      · exact le_rfl

/-- C4: After `_append_to_pinset`, the cid list has no duplicates and the
`count` field equals its length. -/
theorem append_to_pinset_nodup_count (pin_set : PinSet) (new_items : GetPinsResponse) :
    (append_to_pinset pin_set new_items).cids.Nodup ∧
      (append_to_pinset pin_set new_items).count =
        ((append_to_pinset pin_set new_items).cids.length : Int) := by
  cases h : new_items.results with
  | nil => rw [append_eq_nil pin_set new_items h]; exact ⟨List.nodup_dedup _, rfl⟩
  | cons item rest =>
    rw [append_eq_cons pin_set new_items item rest h]
    exact ⟨List.nodup_dedup _, rfl⟩

/-- C3: Merging the same page twice in a row yields the same cids (as a set),
the same count and the same date bounds as merging it once. -/
theorem append_to_pinset_idempotent (pin_set : PinSet) (new_items : GetPinsResponse) :
    (append_to_pinset (append_to_pinset pin_set new_items) new_items).cids.toFinset =
        (append_to_pinset pin_set new_items).cids.toFinset ∧
      (append_to_pinset (append_to_pinset pin_set new_items) new_items).count =
        (append_to_pinset pin_set new_items).count ∧
      (append_to_pinset (append_to_pinset pin_set new_items) new_items).first_date =
        (append_to_pinset pin_set new_items).first_date ∧
      (append_to_pinset (append_to_pinset pin_set new_items) new_items).last_date =
        (append_to_pinset pin_set new_items).last_date := by
  set q := append_to_pinset pin_set new_items with hq
  have hsets : (mergedCids q new_items).dedup.toFinset = q.cids.toFinset := by
    apply List.toFinset.ext
    intro x
    simp only [mergedCids]
    rw [hq, append_cids pin_set new_items]
    simp only [mergedCids, List.mem_dedup, List.mem_append]
    tauto
  cases h : new_items.results with
  | nil =>
    rw [append_eq_nil q new_items h]
    refine ⟨hsets, ?_, rfl, rfl⟩
    have hcard := hsets
    have h1 : (mergedCids q new_items).dedup.toFinset.card = q.cids.toFinset.card := by
      rw [hcard]
    rw [List.toFinset_card_of_nodup (List.nodup_dedup _)] at h1
    rw [List.toFinset_card_of_nodup] at h1
    · have hcount : q.count = (q.cids.length : Int) :=
        (append_to_pinset_nodup_count pin_set new_items).2
      rw [hcount, h1]
    · exact (append_to_pinset_nodup_count pin_set new_items).1
  | cons item rest =>
    have hfirst : q.first_date ≤ (rest.map (fun it => it.created)).foldl min item.created := by
      rw [hq, append_eq_cons pin_set new_items item rest h]
      dsimp only
      split_ifs with hf
      · exact le_rfl
      · exact le_of_not_lt hf
    have hlast : (rest.map (fun it => it.created)).foldl max item.created ≤ q.last_date := by
      rw [hq, append_eq_cons pin_set new_items item rest h]
      dsimp only
      split_ifs with hl
      · exact le_rfl
      · exact le_of_not_lt hl
    rw [append_eq_cons q new_items item rest h]
    refine ⟨hsets, ?_, ?_, ?_⟩
    · have hcard := hsets
      have h1 : (mergedCids q new_items).dedup.toFinset.card = q.cids.toFinset.card := by
        rw [hcard]
      rw [List.toFinset_card_of_nodup (List.nodup_dedup _)] at h1
      rw [List.toFinset_card_of_nodup] at h1
      · have hcount : q.count = (q.cids.length : Int) :=
          (append_to_pinset_nodup_count pin_set new_items).2
        dsimp only
        rw [hcount, h1]
      · exact (append_to_pinset_nodup_count pin_set new_items).1
    · dsimp only
      rw [if_neg (not_lt.mpr hfirst)]
    · dsimp only
      rw [if_neg (not_lt.mpr hlast)]

/-- The bootstrap seeding of the date bounds in `get_all_cids` (lines 333-338):
when the checkpoint is empty, both bounds are seeded from the newest entry's
`created` timestamp, with `last_date` offset one second earlier so the first
real page is re-read rather than skipped. -/
def bootstrap_seed (pin_set : PinSet) (created : Int) : PinSet :=
  { pin_set with first_date := created, last_date := created - seconds 1 }

theorem append_bounds_of_ne_nil (pin_set : PinSet) (new_items : GetPinsResponse)
    (h : new_items.results ≠ []) :
    (append_to_pinset pin_set new_items).first_date ≤
      (append_to_pinset pin_set new_items).last_date := by
  cases hr : new_items.results with
  | nil => exact absurd hr h
  | cons item rest =>
    rw [append_eq_cons pin_set new_items item rest hr]
    dsimp only
    have hmm := foldl_min_le_foldl_max (rest.map (fun it => it.created)) item.created
    split_ifs with hf hl hl
    · exact hmm
    · exact le_trans hmm (le_of_not_lt hl)
    · exact le_trans (le_of_not_lt hf) hmm
    · exact le_trans (le_of_not_lt hf) (le_trans hmm (le_of_not_lt hl))

theorem append_preserves_bounds (pin_set : PinSet) (new_items : GetPinsResponse)
    (h : pin_set.first_date ≤ pin_set.last_date) :
    (append_to_pinset pin_set new_items).first_date ≤
      (append_to_pinset pin_set new_items).last_date := by
  obtain ⟨h1, h2⟩ := append_to_pinset_monotone_bounds pin_set new_items
  exact le_trans h1 (le_trans h h2)

theorem foldl_append_bounds (pages : List GetPinsResponse) :
    ∀ pin_set : PinSet,
      (pin_set.first_date ≤ pin_set.last_date ∨ ∃ r ∈ pages, r.results ≠ []) →
      (pages.foldl append_to_pinset pin_set).first_date ≤
        (pages.foldl append_to_pinset pin_set).last_date := by
  induction pages with
  | nil =>
    intro pin_set hyp
    rcases hyp with h | ⟨r, hr, _⟩
    · exact h
    · exact absurd hr (List.not_mem_nil r)
  | cons page rest ih =>
    intro pin_set hyp
    rw [List.foldl_cons]
    apply ih
    rcases hyp with h | ⟨r, hr, hne⟩
    · exact Or.inl (append_preserves_bounds pin_set page h)
    · rcases List.mem_cons.mp hr with heq | hmem
      · exact Or.inl (heq ▸ append_bounds_of_ne_nil pin_set page (heq ▸ hne))
      · exact Or.inr ⟨r, hmem, hne⟩

/-- C2: After the bootstrap seeding of the bounds followed by any sequence of
`_append_to_pinset` calls of which at least one received a non-empty results
page, the invariant `first_date ≤ last_date` holds. -/
theorem pinset_bounds_ordered (pin_set : PinSet) (created : Int)
    (pages : List GetPinsResponse) (hne : ∃ r ∈ pages, r.results ≠ []) :
    (pages.foldl append_to_pinset (bootstrap_seed pin_set created)).first_date ≤
      (pages.foldl append_to_pinset (bootstrap_seed pin_set created)).last_date :=
  foldl_append_bounds pages (bootstrap_seed pin_set created) (Or.inr hne)

/-- Witness for C2: a concrete bootstrap state followed by one non-empty page. -/
theorem pinset_bounds_ordered_witness :
    ([{ count := 0,
        results := [{ created := seconds 50, pin := { cid := "QmA" } }] }].foldl
          append_to_pinset
          (bootstrap_seed
            { count := 0, cids := [], last_date := seconds 7, first_date := seconds 7 }
            (seconds 100))).first_date ≤
      ([{ count := 0,
          results := [{ created := seconds 50, pin := { cid := "QmA" } }] }].foldl
            append_to_pinset
            (bootstrap_seed
              { count := 0, cids := [], last_date := seconds 7, first_date := seconds 7 }
              (seconds 100))).last_date :=
  pinset_bounds_ordered
    { count := 0, cids := [], last_date := seconds 7, first_date := seconds 7 }
    (seconds 100)
    [{ count := 0, results := [{ created := seconds 50, pin := { cid := "QmA" } }] }]
    ⟨{ count := 0, results := [{ created := seconds 50, pin := { cid := "QmA" } }] },
      by simp, by simp⟩

/-- Which directional walk `_loop_get_list` is running (`after_before_key`). -/
inductive Direction
  | after
  | before
deriving DecidableEq

/-- The mutable local variables of one `_loop_get_list` walk. -/
structure LoopState where
  pinSet : PinSet
  before : Option Int
  after : Option Int
  oldResultCount : Int
deriving DecidableEq

/-- The outcome of one iteration of the `while` loop of `_loop_get_list`:
either the drift branch ran `continue` (retry), or the page was merged, with
the flags recording whether the loop keeps running and whether the checkpoint
was saved (the empty-page `break` happens before the boundary update and the
save). -/
inductive IterOut
  | retry (s : LoopState)
  | proceed (s : LoopState) (keepLooping : Bool) (saved : Bool)
deriving DecidableEq

/-- One iteration of the `while` loop body of `FilebasePinAPI._loop_get_list`
(lines 160-212), given the response `temp` of this iteration's `get_list`
call. -/
def loop_get_list_iter (key : Direction) (limit : Int) (s : LoopState)
    (temp : GetPinsResponse) : IterOut :=
  let result_count := temp.count
  let old_result_count :=
    if s.oldResultCount = 0 then result_count + (temp.results.length : Int)
    else s.oldResultCount
  if old_result_count - limit > result_count then
    IterOut.retry
      { s with
        oldResultCount := old_result_count,
        before := s.before.map (fun b => b + seconds 2),
        after := s.after.map (fun a => a - seconds 2) }
  else
    let p := append_to_pinset s.pinSet temp
    if temp.results.length = 0 then
      IterOut.proceed { s with oldResultCount := result_count, pinSet := p } false false
    else
      IterOut.proceed
        { pinSet := p,
          oldResultCount := result_count,
          before := if key = Direction.before then some p.first_date else s.before,
          after := if key = Direction.after then some p.last_date else s.after }
        (decide (result_count > limit)) true

/-- C1 (amended): in each directional pagination loop, an iteration retries
without merging exactly under the code's drift test: when the previously
tracked remaining-count (after its first-iteration initialisation) exceeds the
server's reported remaining-count by more than the page limit.  In that case
the page is not merged, the boundary is not advanced, and the exclusion window
is widened by 2 seconds (`before` moves 2 seconds later, `after` 2 seconds
earlier). -/
theorem loop_drift_retry (key : Direction) (limit : Int) (s : LoopState)
    (temp : GetPinsResponse)
    (hdrift :
      (if s.oldResultCount = 0 then temp.count + (temp.results.length : Int)
       else s.oldResultCount) - limit > temp.count) :
    loop_get_list_iter key limit s temp =
      IterOut.retry
        { pinSet := s.pinSet,
          before := s.before.map (fun b => b + seconds 2),
          after := s.after.map (fun a => a - seconds 2),
          oldResultCount :=
            if s.oldResultCount = 0 then temp.count + (temp.results.length : Int)
            else s.oldResultCount } := by
  simp only [loop_get_list_iter]
  rw [if_pos hdrift]

/-- Witness for the amended C1: a concrete drifting iteration. -/
theorem loop_drift_retry_witness :
    loop_get_list_iter Direction.before 1000
        { pinSet := { count := 1, cids := ["QmA"], last_date := seconds 200,
                      first_date := seconds 100 },
          before := some (seconds 100), after := none, oldResultCount := 5000 }
        { count := 100, results := [] } =
      IterOut.retry
        { pinSet := { count := 1, cids := ["QmA"], last_date := seconds 200,
                      first_date := seconds 100 },
          before := some (seconds 102), after := none, oldResultCount := 5000 } :=
  loop_drift_retry Direction.before 1000
    { pinSet := { count := 1, cids := ["QmA"], last_date := seconds 200,
                  first_date := seconds 100 },
      before := some (seconds 100), after := none, oldResultCount := 5000 }
    { count := 100, results := [] }
    (by decide)

/-- Counterexample to C1 as stated: an iteration in which the server's
remaining-count did not decrease at all (decrease 0, far less than the page
size minus any non-negative drift tolerance), yet the loop does not retry with
a widened window: it merges the page and advances the `after` boundary. -/
theorem loop_drift_claim_counterexample :
    ((5000 : Int) - 5000 < 1000 - 0 ∧
      loop_get_list_iter Direction.after 1000
          { pinSet := { count := 1, cids := ["QmA"], last_date := seconds 200,
                        first_date := seconds 100 },
            before := none, after := some (seconds 200), oldResultCount := 5000 }
          { count := 5000,
            results := [{ created := seconds 300, pin := { cid := "QmB" } }] } =
        IterOut.proceed
          { pinSet := { count := 2, cids := ["QmA", "QmB"], last_date := seconds 300,
                        first_date := seconds 100 },
            before := none, after := some (seconds 300), oldResultCount := 5000 }
          true true) := by
  constructor
  · decide
  · decide

/-- The Python exceptions that can escape the record-store functions. -/
inductive Err
  | indexError
  | valueError
  | jsonError
deriving DecidableEq

/-- A date field of a stored record: either a live `datetime` object or the
string form used in the JSON file (Python stores either, and
`save_pinset_to_json` tests with `isinstance`). -/
inductive DateVal
  | dt (t : Int)
  | str (s : String)
deriving DecidableEq

/-- A bucket's record as it sits in the multi-bucket JSON document. -/
structure PinSetV where
  count : Int
  cids : List String
  last_date : DateVal
  first_date : DateVal
deriving DecidableEq

/-- The state of the record file on disk: absent (`FileNotFoundError` on
open), present but not decodable as JSON (`json.JSONDecodeError`), or a parsed
multi-bucket document keyed by bucket name. -/
inductive FileState
  | missing
  | corrupt
  | parsed (d : List (String × PinSetV))
deriving DecidableEq

/-- Numeric value of a decimal digit character. -/
def d2n (c : Char) : Nat := c.toNat - 48

/-- Pack the broken-down fields of an API timestamp into one abstract integer
timestamp, in mixed radix so that one second equals `1000000` units. -/
def encodeTS (y mo dd hh mi ss us : Nat) : Int :=
  ((((((((y * 13 + mo) * 32 + dd) * 24 + hh) * 60 + mi) * 60 + ss) * 1000000 + us : Nat)) : Int)

/-- `datetime.strptime(s, "%Y-%m-%dT%H:%M:%S.%f%z")`: succeeds only on
strings of the API date format (`YYYY-MM-DDTHH:MM:SS.ffffff±HHMM` with fields
in range), returning the abstract timestamp; any other string raises
`ValueError`, modelled as `none`.  The UTC offset digits are validated but,
per the fixed-offset convention of this model, not folded into the value. -/
def parseDateAPI (dateStr : String) : Option Int :=
  match dateStr.toList with
  | [y1, y2, y3, y4, c1, m1, m2, c2, d1, d2, t1, h1, h2, c3, n1, n2, c4, s1, s2, c5,
     f1, f2, f3, f4, f5, f6, sgn, z1, z2, z3, z4] =>
    if c1 = '-' ∧ c2 = '-' ∧ t1 = 'T' ∧ c3 = ':' ∧ c4 = ':' ∧ c5 = '.'
        ∧ (sgn = '+' ∨ sgn = '-')
        ∧ ([y1, y2, y3, y4, m1, m2, d1, d2, h1, h2, n1, n2, s1, s2,
            f1, f2, f3, f4, f5, f6, z1, z2, z3, z4].all Char.isDigit = true) then
      let y := ((d2n y1 * 10 + d2n y2) * 10 + d2n y3) * 10 + d2n y4
      let mo := d2n m1 * 10 + d2n m2
      let dd := d2n d1 * 10 + d2n d2
      let hh := d2n h1 * 10 + d2n h2
      let mi := d2n n1 * 10 + d2n n2
      let ss := d2n s1 * 10 + d2n s2
      let us := ((((d2n f1 * 10 + d2n f2) * 10 + d2n f3) * 10 + d2n f4) * 10 + d2n f5) * 10
        + d2n f6
      if 1 ≤ mo ∧ mo ≤ 12 ∧ 1 ≤ dd ∧ dd ≤ 31 ∧ hh ≤ 23 ∧ mi ≤ 59 ∧ ss ≤ 61 then
        some (encodeTS y mo dd hh mi ss us)
      else none
    else none
  | _ => none

/-- Left-pad a number with zeros to the given width. -/
def pad (width n : Nat) : String :=
  let s := toString n
  if s.length < width then String.mk (List.replicate (width - s.length) '0') ++ s else s

/-- `datetime.strftime("%Y-%m-%dT%H:%M:%S.%f%z")` on the abstract timestamp:
unpack the mixed-radix encoding and print it in the API date format with the
fixed UTC offset. -/
def formatDate (t : Int) : String :=
  let n := t.toNat
  let us := n % 1000000
  let r1 := n / 1000000
  let ss := r1 % 60
  let r2 := r1 / 60
  let mi := r2 % 60
  let r3 := r2 / 60
  let hh := r3 % 24
  let r4 := r3 / 24
  let dd := r4 % 32
  let r5 := r4 / 32
  let mo := r5 % 13
  let y := r5 / 13
  pad 4 y ++ "-" ++ pad 2 mo ++ "-" ++ pad 2 dd ++ "T" ++ pad 2 hh ++ ":" ++ pad 2 mi
    ++ ":" ++ pad 2 ss ++ "." ++ pad 6 us ++ "+0000"

/-- `datetime(2021, 1, 1, tzinfo=timezone.utc)`, the sentinel epoch of the
empty checkpoint. -/
def sentinelEpoch : Int := encodeTS 2021 1 1 0 0 0 0

/-- The sentinel empty pin set built by the `except` branch of
`load_pinset_from_json`. -/
def sentinelPinSet : PinSet :=
  { count := 0, cids := [], last_date := sentinelEpoch, first_date := sentinelEpoch }

/-- `strptime` applied to a stored date field: a string is parsed with the API
format; a non-string raises (`TypeError`, equally uncaught in the load path),
modelled as `none`. -/
def dateValParse : DateVal → Option Int
  | DateVal.str s => parseDateAPI s
  | DateVal.dt _ => none

/-- Dictionary lookup in the parsed multi-bucket document
(`data[bucket_name]`, `KeyError` when absent modelled as `none`). -/
def lookupBucket (d : List (String × PinSetV)) (k : String) : Option PinSetV :=
  (d.find? (fun e => e.1 == k)).map (fun e => e.2)

/-- Python dict assignment `saved_data[bucket_name] = pin_set_copy`: replace
the entry if the key is present, otherwise add it. -/
def setBucket (d : List (String × PinSetV)) (k : String) (v : PinSetV) :
    List (String × PinSetV) :=
  if d.any (fun e => e.1 == k) then d.map (fun e => if e.1 == k then (k, v) else e)
  else d ++ [(k, v)]

/-- `FilebasePinAPI.load_pinset_from_json`: build the pin set from the bucket's
record, falling back to the sentinel on `FileNotFoundError`,
`json.JSONDecodeError` or `KeyError`; the `strptime` calls on the stored date
strings are outside the caught exception types, so their failure propagates
(`Except.error Err.valueError`). -/
def load_pinset_from_json (file : FileState) (bucket_name : String) :
    Except Err PinSet :=
  match file with
  | FileState.missing => Except.ok sentinelPinSet
  | FileState.corrupt => Except.ok sentinelPinSet
  | FileState.parsed d =>
    match lookupBucket d bucket_name with
    | none => Except.ok sentinelPinSet
    | some rec =>
      match dateValParse rec.last_date with
      | none => Except.error Err.valueError
      | some ld =>
        match dateValParse rec.first_date with
        | none => Except.error Err.valueError
        | some fd =>
          Except.ok { cids := rec.cids, count := rec.count, last_date := ld, first_date := fd }

/-- C6 (amended): `load_pinset_from_json` returns the sentinel empty pin set
without raising when the record file does not exist, when the file is not
decodable as JSON, or when the bucket has no record in the document; but a
present record whose date fields do not parse in the API format raises an
uncaught `ValueError`, which propagates. -/
theorem load_pinset_fallback (bucket_name : String) :
    load_pinset_from_json FileState.missing bucket_name = Except.ok sentinelPinSet ∧
      load_pinset_from_json FileState.corrupt bucket_name = Except.ok sentinelPinSet ∧
      (∀ d : List (String × PinSetV), lookupBucket d bucket_name = none →
        load_pinset_from_json (FileState.parsed d) bucket_name = Except.ok sentinelPinSet) ∧
      (∀ (d : List (String × PinSetV)) (rec : PinSetV),
        lookupBucket d bucket_name = some rec → dateValParse rec.last_date = none →
        load_pinset_from_json (FileState.parsed d) bucket_name =
          Except.error Err.valueError) := by
  refine ⟨rfl, rfl, ?_, ?_⟩
  · intro d hd
    simp only [load_pinset_from_json, hd]
  · intro d rec hd hparse
    simp only [load_pinset_from_json, hd, hparse]

/-- Witness for the amended C6 at concrete inputs. -/
theorem load_pinset_fallback_witness :
    load_pinset_from_json FileState.missing "kleros" = Except.ok sentinelPinSet ∧
      load_pinset_from_json FileState.corrupt "kleros" = Except.ok sentinelPinSet ∧
      load_pinset_from_json (FileState.parsed []) "kleros" = Except.ok sentinelPinSet ∧
      load_pinset_from_json
          (FileState.parsed
            [("kleros",
              { count := 0, cids := [], last_date := DateVal.str "garbage",
                first_date := DateVal.str "garbage" })])
          "kleros" =
        Except.error Err.valueError :=
  ⟨(load_pinset_fallback "kleros").1,
    (load_pinset_fallback "kleros").2.1,
    (load_pinset_fallback "kleros").2.2.1 [] (by decide),
    (load_pinset_fallback "kleros").2.2.2
      [("kleros",
        { count := 0, cids := [], last_date := DateVal.str "garbage",
          first_date := DateVal.str "garbage" })]
      { count := 0, cids := [], last_date := DateVal.str "garbage",
        first_date := DateVal.str "garbage" }
      (by decide) (by decide)⟩

/-- Counterexample to C6 as stated: a bucket record that is present but
corrupt (its stored `last_date` is not in the API date format) is not turned
into the sentinel empty pin set; the date-parse failure propagates as an
error. -/
theorem load_pinset_corrupt_counterexample :
    load_pinset_from_json
        (FileState.parsed
          [("poh-v2",
            { count := 3, cids := ["QmA", "QmB", "QmC"],
              last_date := DateVal.str "not-a-date",
              first_date := DateVal.str "not-a-date" })])
        "poh-v2" =
      Except.error Err.valueError := rfl

/-- `FilebasePinAPI.load_data_from_json` as used inside
`save_pinset_to_json`: a missing file is caught (`except FileNotFoundError`)
and replaced by the empty document `{}`; an undecodable file raises
`json.JSONDecodeError`, which `save_pinset_to_json` does not catch. -/
def loadDocForSave : FileState → Except Err (List (String × PinSetV))
  | FileState.missing => Except.ok []
  | FileState.corrupt => Except.error Err.jsonError
  | FileState.parsed d => Except.ok d

/-- The serialised form of an in-memory pin set as `save_pinset_to_json`
writes it: dates rendered with `strftime` and the cid list deduplicated
(`list(set(...))`). -/
def serializePinSet (pin_set : PinSet) : PinSetV :=
  { count := pin_set.count,
    cids := pin_set.cids.dedup,
    last_date := DateVal.str (formatDate pin_set.last_date),
    first_date := DateVal.str (formatDate pin_set.first_date) }

/-- The effect of `FilebasePinAPI.save_pinset_to_json` on the record file:
read the existing multi-bucket document (missing file treated as `{}`),
replace the target bucket's entry with the serialised pin set, rewrite the
whole file. -/
def save_pinset_to_json (pin_set : PinSet) (bucket_name : String) (file : FileState) :
    Except Err FileState :=
  match loadDocForSave file with
  | Except.error e => Except.error e
  | Except.ok saved_data =>
    Except.ok (FileState.parsed (setBucket saved_data bucket_name (serializePinSet pin_set)))

theorem find?_replace_self (t : List (String × PinSetV)) (k : String) (v : PinSetV)
    (hany : t.any (fun e => e.1 == k) = true) :
    List.find? (fun e => e.1 == k)
        (t.map (fun e => if e.1 == k then (k, v) else e)) = some (k, v) := by
  induction t with
  | nil => simp at hany
  | cons e t ih =>
    by_cases he : (e.1 == k) = true
    · simp only [List.map_cons, if_pos he, List.find?_cons, beq_self_eq_true]
    · have he0 : (e.1 == k) = false := by simpa using he
      rw [List.any_cons] at hany
      simp only [he0, Bool.false_or] at hany
      rw [List.map_cons, if_neg (by simp [he0] : ¬(e.1 == k) = true)]
      simp only [List.find?_cons, he0]
      exact ih hany

theorem find?_replace_ne (t : List (String × PinSetV)) (k b' : String) (v : PinSetV)
    (h : b' ≠ k) :
    List.find? (fun e => e.1 == b')
        (t.map (fun e => if e.1 == k then (k, v) else e)) =
      List.find? (fun e => e.1 == b') t := by
  induction t with
  | nil => rfl
  | cons e t ih =>
    by_cases he : (e.1 == k) = true
    · have he1 : e.1 = k := by simpa using he
      have h1 : (k == b') = false := by simp [beq_eq_false_iff_ne]; exact fun hc => h hc.symm
      have h2 : (e.1 == b') = false := by
        simp [beq_eq_false_iff_ne, he1]; exact fun hc => h hc.symm
      simp only [List.map_cons, if_pos he, List.find?_cons, h1, h2]
      exact ih
    · have he0 : (e.1 == k) = false := by simpa using he
      simp only [List.map_cons, if_neg (by simp [he0] : ¬(e.1 == k) = true),
        List.find?_cons]
      by_cases hb : (e.1 == b') = true
      · simp [hb]
      · have hb0 : (e.1 == b') = false := by simpa using hb
        simp only [hb0]
        exact ih

theorem find?_append_single_self (t : List (String × PinSetV)) (k : String) (v : PinSetV)
    (hany : t.any (fun e => e.1 == k) = false) :
    List.find? (fun e => e.1 == k) (t ++ [(k, v)]) = some (k, v) := by
  induction t with
  | nil => simp [List.find?_cons]
  | cons e t ih =>
    rw [List.any_cons, Bool.or_eq_false_iff] at hany
    simp only [List.cons_append, List.find?_cons, hany.1]
    exact ih hany.2

theorem find?_append_single_ne (t : List (String × PinSetV)) (k b' : String) (v : PinSetV)
    (h : b' ≠ k) :
    List.find? (fun e => e.1 == b') (t ++ [(k, v)]) =
      List.find? (fun e => e.1 == b') t := by
  induction t with
  | nil =>
    have h1 : (k == b') = false := by simp [beq_eq_false_iff_ne]; exact fun hc => h hc.symm
    simp [List.find?_cons, h1]
  | cons e t ih =>
    simp only [List.cons_append, List.find?_cons]
    by_cases hb : (e.1 == b') = true
    · simp [hb]
    · have hb0 : (e.1 == b') = false := by simpa using hb
      simp only [hb0]
      exact ih

theorem lookupBucket_setBucket_self (d : List (String × PinSetV)) (k : String) (v : PinSetV) :
    lookupBucket (setBucket d k v) k = some v := by
  simp only [setBucket, lookupBucket]
  split_ifs with hany
  · rw [find?_replace_self d k v hany]
    rfl
  · have hf : d.any (fun e => e.1 == k) = false := by
      cases hx : d.any (fun e => e.1 == k) with
      | false => rfl
      | true => exact absurd hx hany
    rw [find?_append_single_self d k v hf]
    rfl

theorem lookupBucket_setBucket_ne (d : List (String × PinSetV)) (k b' : String)
    (v : PinSetV) (h : b' ≠ k) :
    lookupBucket (setBucket d k v) b' = lookupBucket d b' := by
  simp only [setBucket, lookupBucket]
  split_ifs with hany
  · rw [find?_replace_ne d k b' v h]
  · rw [find?_append_single_ne d k b' v h]

/-- C7: for every bucket, pin set and existing (parsed) multi-bucket record
file, `save_pinset_to_json` rewrites the file with only the target bucket's
entry replaced by the serialised pin set; the entry of every other bucket is
unchanged. -/
theorem save_pinset_frame (pin_set : PinSet) (bucket_name : String)
    (d : List (String × PinSetV)) :
    save_pinset_to_json pin_set bucket_name (FileState.parsed d) =
        Except.ok (FileState.parsed (setBucket d bucket_name (serializePinSet pin_set))) ∧
      lookupBucket (setBucket d bucket_name (serializePinSet pin_set)) bucket_name =
        some (serializePinSet pin_set) ∧
      ∀ b' : String, b' ≠ bucket_name →
        lookupBucket (setBucket d bucket_name (serializePinSet pin_set)) b' =
          lookupBucket d b' :=
  ⟨rfl,
    lookupBucket_setBucket_self d bucket_name (serializePinSet pin_set),
    fun b' hb' => lookupBucket_setBucket_ne d bucket_name b' (serializePinSet pin_set) hb'⟩

/-- Witness for C7: saving the `kleros` record leaves the `poh-v2` record
untouched in a concrete two-bucket file. -/
theorem save_pinset_frame_witness :
    save_pinset_to_json sentinelPinSet "kleros"
        (FileState.parsed
          [("kleros", { count := 0, cids := [], last_date := DateVal.str "x",
                        first_date := DateVal.str "x" }),
           ("poh-v2", { count := 1, cids := ["QmZ"], last_date := DateVal.str "y",
                        first_date := DateVal.str "y" })]) =
        Except.ok (FileState.parsed
          (setBucket
            [("kleros", { count := 0, cids := [], last_date := DateVal.str "x",
                          first_date := DateVal.str "x" }),
             ("poh-v2", { count := 1, cids := ["QmZ"], last_date := DateVal.str "y",
                          first_date := DateVal.str "y" })]
            "kleros" (serializePinSet sentinelPinSet))) ∧
      lookupBucket
          (setBucket
            [("kleros", { count := 0, cids := [], last_date := DateVal.str "x",
                          first_date := DateVal.str "x" }),
             ("poh-v2", { count := 1, cids := ["QmZ"], last_date := DateVal.str "y",
                          first_date := DateVal.str "y" })]
            "kleros" (serializePinSet sentinelPinSet)) "poh-v2" =
        lookupBucket
          [("kleros", { count := 0, cids := [], last_date := DateVal.str "x",
                        first_date := DateVal.str "x" }),
           ("poh-v2", { count := 1, cids := ["QmZ"], last_date := DateVal.str "y",
                        first_date := DateVal.str "y" })] "poh-v2" :=
  ⟨(save_pinset_frame sentinelPinSet "kleros"
      [("kleros", { count := 0, cids := [], last_date := DateVal.str "x",
                    first_date := DateVal.str "x" }),
       ("poh-v2", { count := 1, cids := ["QmZ"], last_date := DateVal.str "y",
                    first_date := DateVal.str "y" })]).1,
    (save_pinset_frame sentinelPinSet "kleros"
      [("kleros", { count := 0, cids := [], last_date := DateVal.str "x",
                    first_date := DateVal.str "x" }),
       ("poh-v2", { count := 1, cids := ["QmZ"], last_date := DateVal.str "y",
                    first_date := DateVal.str "y" })]).2.2 "poh-v2" (by decide)⟩

/-- `get_missing_cids` in `backup_filebase_locally.py`, with the two
file-reading collaborators (`get_local_node_pins`, `get_filebase_pins`)
abstracted as the cid lists they return.  The first component is the returned
`missing_cids = set(filebase_cids) - set(local_cids)`; the second is
`filebase_missing_cids = set(local_cids) - set(filebase_cids)`, which the code
computes and reports per-cid in the log (without halting) rather than
returning. -/
def get_missing_cids (local_cids filebase_cids : List String) :
    Finset String × Finset String :=
  let missing_cids := filebase_cids.toFinset \ local_cids.toFinset
  let filebase_missing_cids := local_cids.toFinset \ filebase_cids.toFinset
  (missing_cids, filebase_missing_cids)

/-- C8: the diff step is pure set subtraction both ways: the returned set is
exactly remote-minus-local and the reported anomaly set is exactly
local-minus-remote; in particular for local `{a,b,c}` and remote `{b,c,d}`
the result is `remote_only = {d}` and `local_only = {a}`. -/
theorem get_missing_cids_spec :
    (∀ (local_cids filebase_cids : List String) (c : String),
        (c ∈ (get_missing_cids local_cids filebase_cids).1 ↔
          c ∈ filebase_cids ∧ c ∉ local_cids) ∧
        (c ∈ (get_missing_cids local_cids filebase_cids).2 ↔
          c ∈ local_cids ∧ c ∉ filebase_cids)) ∧
      get_missing_cids ["a", "b", "c"] ["b", "c", "d"] = ({"d"}, {"a"}) := by
  constructor
  · intro local_cids filebase_cids c
    constructor
    · simp [get_missing_cids, Finset.mem_sdiff]
    · simp [get_missing_cids, Finset.mem_sdiff]
  · decide

/-- A heap of live Python objects for the aliasing behaviour of
`save_pinset_to_json`: object ids mapped to pin-set record values. -/
abbrev Heap : Type := List (Nat × PinSetV)

/-- Dereference an object id. -/
def hlookup (h : Heap) (i : Nat) : Option PinSetV :=
  (List.find? (fun e => e.1 == i) h).map (fun e => e.2)

/-- In-place update of the object with the given id. -/
def hset (h : Heap) (i : Nat) (f : PinSetV → PinSetV) : Heap :=
  List.map (fun e : Nat × PinSetV => if e.1 == i then (i, f e.2) else e) h

/-- An object id not yet used by any object of the heap. -/
def freshId (h : Heap) : Nat :=
  List.foldr (fun (e : Nat × PinSetV) (m : Nat) => max e.1 m) 0 h + 1

/-- `FilebasePinAPI.save_pinset_to_json` at the object level:
`copy.deepcopy(pin_set)` allocates a fresh object; the existing document is
read (missing file treated as `{}`, undecodable file raising
`json.JSONDecodeError`); the `isinstance` branches convert the *copy*'s dates
to strings in place and deduplicate the copy's cid list; the copy is then
stored under the bucket's key and the whole document rewritten. -/
def save_pinset_to_json_heap (h : Heap) (pid : Nat) (bucket_name : String)
    (file : FileState) : Except Err (Heap × FileState) :=
  match hlookup h pid with
  | none => Except.ok (h, file)
  | some v =>
    let cid := freshId h
    let h1 : Heap := h ++ [(cid, v)]
    match loadDocForSave file with
    | Except.error e => Except.error e
    | Except.ok saved_data =>
      let h2 := hset h1 cid (fun w =>
        match w.last_date with
        | DateVal.dt t => { w with last_date := DateVal.str (formatDate t) }
        | DateVal.str _ => w)
      let h3 := hset h2 cid (fun w =>
        match w.first_date with
        | DateVal.dt t => { w with first_date := DateVal.str (formatDate t) }
        | DateVal.str _ => w)
      let h4 := hset h3 cid (fun w => { w with cids := w.cids.dedup })
      match hlookup h4 cid with
      | none => Except.ok (h4, file)
      | some copyV =>
        Except.ok (h4, FileState.parsed (setBucket saved_data bucket_name copyV))

theorem hlookup_le_foldr_max (h : Heap) (i : Nat) (v : PinSetV)
    (hv : hlookup h i = some v) :
    i ≤ List.foldr (fun (e : Nat × PinSetV) (m : Nat) => max e.1 m) 0 h := by
  induction h with
  | nil => simp [hlookup] at hv
  | cons e t ih =>
    simp only [hlookup, List.find?_cons] at hv
    by_cases he : (e.1 == i) = true
    · have : e.1 = i := by simpa using he
      simp only [List.foldr_cons, this]
      exact le_max_left i _
    · have he0 : (e.1 == i) = false := by simpa using he
      rw [he0] at hv
      simp only [List.foldr_cons]
      exact le_trans (ih hv) (le_max_right e.1 _)

theorem hlookup_lt_freshId (h : Heap) (i : Nat) (v : PinSetV)
    (hv : hlookup h i = some v) : i < freshId h :=
  Nat.lt_succ_of_le (hlookup_le_foldr_max h i v hv)

theorem hlookup_append_left (h t : Heap) (i : Nat) (v : PinSetV)
    (hv : hlookup h i = some v) : hlookup (h ++ t) i = some v := by
  induction h with
  | nil => simp [hlookup] at hv
  | cons e es ih =>
    simp only [hlookup, List.cons_append, List.find?_cons] at hv ⊢
    by_cases he : (e.1 == i) = true
    · rw [he] at hv ⊢
      simpa using hv
    · have he0 : (e.1 == i) = false := by simpa using he
      rw [he0] at hv ⊢
      exact ih hv

theorem hlookup_hset_ne (h : Heap) (i j : Nat) (f : PinSetV → PinSetV)
    (hne : i ≠ j) : hlookup (hset h j f) i = hlookup h i := by
  induction h with
  | nil => rfl
  | cons e t ih =>
    by_cases he : (e.1 == j) = true
    · have he1 : e.1 = j := by simpa using he
      have h1 : (j == i) = false := by
        simp only [beq_eq_false_iff_ne]
        exact fun hc => hne hc.symm
      have h2 : (e.1 == i) = false := by
        simp only [beq_eq_false_iff_ne, he1]
        exact fun hc => hne hc.symm
      simp only [hset, List.map_cons, if_pos he, hlookup, List.find?_cons, h1, h2]
      exact ih
    · have he0 : (e.1 == j) = false := by simpa using he
      rw [hset, List.map_cons, if_neg (by simp [he0] : ¬(e.1 == j) = true)]
      simp only [hlookup, List.find?_cons]
      by_cases hb : (e.1 == i) = true
      · rw [hb]
      · have hb0 : (e.1 == i) = false := by simpa using hb
        rw [hb0]
        exact ih

/-- C10: `save_pinset_to_json` never mutates its `pin_set` argument: whenever
the call returns, the caller's object still holds the value it had before the
call (same cid list, dates still the original datetimes); only the deep copy
has its dates converted to strings and its cids deduplicated for
serialisation. -/
theorem save_pinset_no_mutation (h : Heap) (pid : Nat) (bucket_name : String)
    (file : FileState) (v : PinSetV) (h' : Heap) (f' : FileState)
    (hv : hlookup h pid = some v)
    (hok : save_pinset_to_json_heap h pid bucket_name file = Except.ok (h', f')) :
    hlookup h' pid = some v := by
  have hlt := hlookup_lt_freshId h pid v hv
  have hne : pid ≠ freshId h := Nat.ne_of_lt hlt
  have h1v : hlookup (h ++ [(freshId h, v)]) pid = some v :=
    hlookup_append_left h [(freshId h, v)] pid v hv
  simp only [save_pinset_to_json_heap, hv] at hok
  cases hdoc : loadDocForSave file with
  | error e => rw [hdoc] at hok; exact absurd hok (by simp)
  | ok saved_data =>
    rw [hdoc] at hok
    simp only [] at hok
    have hfinal :
        hlookup
          (hset (hset (hset (h ++ [(freshId h, v)]) (freshId h)
            (fun w =>
              match w.last_date with
              | DateVal.dt t => { w with last_date := DateVal.str (formatDate t) }
              | DateVal.str _ => w)) (freshId h)
            (fun w =>
              match w.first_date with
              | DateVal.dt t => { w with first_date := DateVal.str (formatDate t) }
              | DateVal.str _ => w)) (freshId h)
            (fun w => { w with cids := w.cids.dedup })) pid = some v := by
      rw [hlookup_hset_ne _ _ _ _ hne, hlookup_hset_ne _ _ _ _ hne,
        hlookup_hset_ne _ _ _ _ hne]
      exact h1v
    cases hcv : hlookup
        (hset (hset (hset (h ++ [(freshId h, v)]) (freshId h)
          (fun w =>
            match w.last_date with
            | DateVal.dt t => { w with last_date := DateVal.str (formatDate t) }
            | DateVal.str _ => w)) (freshId h)
          (fun w =>
            match w.first_date with
            | DateVal.dt t => { w with first_date := DateVal.str (formatDate t) }
            | DateVal.str _ => w)) (freshId h)
          (fun w => { w with cids := w.cids.dedup })) (freshId h) with
    | none =>
      rw [hcv] at hok
      have := (Except.ok.injEq _ _).mp hok
      obtain ⟨hh, _⟩ := Prod.mk.injEq _ _ _ _ ▸ this
      cases this
      exact hfinal
    | some copyV =>
      rw [hcv] at hok
      cases hok
      exact hfinal

/-- A concrete one-object heap for exercising `save_pinset_to_json_heap`. -/
def heapW : Heap :=
  [(0, { count := 2, cids := ["QmA", "QmA"], last_date := DateVal.dt (seconds 5),
         first_date := DateVal.dt (seconds 4) })]

/-- The heap after the concrete save call. -/
def heapW2 : Heap :=
  match save_pinset_to_json_heap heapW 0 "kleros" FileState.missing with
  | Except.ok (x, _) => x
  | Except.error _ => []

/-- The file after the concrete save call. -/
def fileW2 : FileState :=
  match save_pinset_to_json_heap heapW 0 "kleros" FileState.missing with
  | Except.ok (_, y) => y
  | Except.error _ => FileState.missing

/-- Witness for C10: after the concrete save call, object 0 still holds its
original value, datetime dates and duplicate cid included. -/
theorem save_pinset_no_mutation_witness :
    hlookup heapW2 0 =
      some { count := 2, cids := ["QmA", "QmA"], last_date := DateVal.dt (seconds 5),
             first_date := DateVal.dt (seconds 4) } :=
  save_pinset_no_mutation heapW 0 "kleros" FileState.missing
    { count := 2, cids := ["QmA", "QmA"], last_date := DateVal.dt (seconds 5),
      first_date := DateVal.dt (seconds 4) }
    heapW2 fileW2 (by decide) (by rfl)

/-- The remote listing endpoint (`get_list` with `status=None`), abstracted as
a function of the `before`/`after` boundaries and the limit; the network and
bucket credentials are external collaborators. -/
abbrev Oracle : Type := Option Int → Option Int → Int → GetPinsResponse

/-- `FilebasePinAPI._loop_get_list`: iterate `loop_get_list_iter`, saving the
checkpoint after each merged non-empty page.  The `while` loop of the source
has no iteration cap; `fuel` bounds the number of modelled iterations, and
running out of fuel returns the current pin set as a loop exit. -/
def loop_get_list (oracle : Oracle) (bucket_name : String) (key : Direction)
    (limit : Int) : Nat → LoopState → FileState → Except Err (PinSet × FileState)
  | 0, s, file => Except.ok (s.pinSet, file)
  | fuel + 1, s, file =>
    let temp := oracle s.before s.after limit
    match loop_get_list_iter key limit s temp with
    | IterOut.retry s' => loop_get_list oracle bucket_name key limit fuel s' file
    | IterOut.proceed s' keepLooping saved =>
      match saved with
      | false => Except.ok (s'.pinSet, file)
      | true =>
        match save_pinset_to_json s'.pinSet bucket_name file with
        | Except.error e => Except.error e
        | Except.ok file' =>
          match keepLooping with
          | true => loop_get_list oracle bucket_name key limit fuel s' file'
          | false => Except.ok (s'.pinSet, file')

/-- The two directional walks at the end of `get_all_cids`: the forward
(`after`) walk from `last_date`, then the backward (`before`) walk from the
pre-walk `first_date`, returning the accumulated cid list. -/
def run_both_loops (oracle : Oracle) (bucket_name : String) (fuel : Nat)
    (p : PinSet) (file : FileState) : Except Err (List String) :=
  let before := p.first_date
  let after := p.last_date
  match loop_get_list oracle bucket_name Direction.after 1000 fuel
      { pinSet := p, before := none, after := some after, oldResultCount := 0 } file with
  | Except.error e => Except.error e
  | Except.ok (p2, file2) =>
    match loop_get_list oracle bucket_name Direction.before 1000 fuel
        { pinSet := p2, before := some before, after := none, oldResultCount := 0 }
        file2 with
    | Except.error e => Except.error e
    | Except.ok (p3, _) => Except.ok p3.cids

/-- `FilebasePinAPI.get_all_cids`: load the checkpoint, bootstrap the date
bounds with a single-item listing when the checkpoint is empty (indexing
`results[0]`, an `IndexError` when the listing is empty), then run the
forward (`after`) walk followed by the backward (`before`) walk and return
the accumulated cid list. -/
def get_all_cids (oracle : Oracle) (bucket_name : String) (fuel : Nat)
    (file : FileState) : Except Err (List String) :=
  match load_pinset_from_json file bucket_name with
  | Except.error e => Except.error e
  | Except.ok pin_set =>
    let boot : Except Err PinSet :=
      if pin_set.count = 0 then
        match (oracle none (some pin_set.last_date) 1).results with
        | [] => Except.error Err.indexError
        | item :: _ =>
          Except.ok { pin_set with
            first_date := item.created,
            last_date := item.created - seconds 1 }
      else Except.ok pin_set
    match boot with
    | Except.error e => Except.error e
    | Except.ok p => run_both_loops oracle bucket_name fuel p file

theorem save_pinset_no_indexError (pin_set : PinSet) (bucket_name : String)
    (file : FileState) :
    save_pinset_to_json pin_set bucket_name file ≠ Except.error Err.indexError := by
  cases file <;> simp [save_pinset_to_json, loadDocForSave]

theorem loop_get_list_no_indexError (oracle : Oracle) (bucket_name : String)
    (key : Direction) (limit : Int) (fuel : Nat) (s : LoopState) (file : FileState) :
    loop_get_list oracle bucket_name key limit fuel s file ≠
      Except.error Err.indexError := by
  induction fuel generalizing s file with
  | zero => simp [loop_get_list]
  | succ n ih =>
    simp only [loop_get_list]
    cases loop_get_list_iter key limit s (oracle s.before s.after limit) with
    | retry s' => exact ih s' file
    | proceed s' keepLooping saved =>
      cases saved with
      | false => simp
      | true =>
        cases hsv : save_pinset_to_json s'.pinSet bucket_name file with
        | error e =>
          simp only [hsv]
          intro hc
          injection hc with h1
          exact save_pinset_no_indexError s'.pinSet bucket_name file (h1 ▸ hsv)
        | ok file' =>
          simp only [hsv]
          cases keepLooping with
          | true => exact ih s' file'
          | false => simp

theorem run_both_loops_no_indexError (oracle : Oracle) (bucket_name : String)
    (fuel : Nat) (p : PinSet) (file : FileState) :
    run_both_loops oracle bucket_name fuel p file ≠ Except.error Err.indexError := by
  simp only [run_both_loops]
  cases h1 : loop_get_list oracle bucket_name Direction.after 1000 fuel
      { pinSet := p, before := none, after := some p.last_date, oldResultCount := 0 }
      file with
  | error e =>
    intro hc
    injection hc with he
    exact loop_get_list_no_indexError oracle bucket_name Direction.after 1000 fuel
      { pinSet := p, before := none, after := some p.last_date, oldResultCount := 0 }
      file (he ▸ h1)
  | ok pr =>
    obtain ⟨p2, file2⟩ := pr
    dsimp only
    cases h2 : loop_get_list oracle bucket_name Direction.before 1000 fuel
        { pinSet := p2, before := some p.first_date, after := none, oldResultCount := 0 }
        file2 with
    | error e =>
      simp only [h2]
      intro hc
      injection hc with he
      exact loop_get_list_no_indexError oracle bucket_name Direction.before 1000 fuel
        { pinSet := p2, before := some p.first_date, after := none, oldResultCount := 0 }
        file2 (he ▸ h2)
    | ok pr2 =>
      obtain ⟨p3, file3⟩ := pr2
      simp only [h2]
      simp

/-- C9: `get_all_cids` is total only when the bootstrap listing is non-empty:
if the loaded checkpoint has count 0 and the single-item bootstrap listing
returns an empty results list, the call fails with an `IndexError` on
`results[0]` instead of returning an empty cid list; when the bootstrap
listing returns at least one entry (or is never issued because the checkpoint
is non-empty), the `IndexError` branch is unreachable. -/
theorem get_all_cids_bootstrap_index (oracle : Oracle) (bucket_name : String)
    (fuel : Nat) (file : FileState) (p : PinSet)
    (hload : load_pinset_from_json file bucket_name = Except.ok p) :
    (p.count = 0 → (oracle none (some p.last_date) 1).results = [] →
      get_all_cids oracle bucket_name fuel file = Except.error Err.indexError) ∧
      ((p.count = 0 → (oracle none (some p.last_date) 1).results ≠ []) →
        get_all_cids oracle bucket_name fuel file ≠ Except.error Err.indexError) := by
  constructor
  · intro hc hres
    simp only [get_all_cids, hload, hc, if_pos, hres]
  · intro hyp
    simp only [get_all_cids, hload]
    by_cases hc : p.count = 0
    · cases hres2 : (oracle none (some p.last_date) 1).results with
      | nil => exact absurd hres2 (hyp hc)
      | cons item rest =>
        simp only [hc, if_pos, hres2]
        exact run_both_loops_no_indexError oracle bucket_name fuel _ file
    · simp only [if_neg hc]
      exact run_both_loops_no_indexError oracle bucket_name fuel p file

/-- The oracle of an empty remote bucket. -/
def oracleEmpty : Oracle := fun _ _ _ => { count := 0, results := [] }

/-- The oracle of a remote bucket holding one fixed entry. -/
def oracleOne : Oracle := fun _ _ _ =>
  { count := 0, results := [{ created := seconds 10, pin := { cid := "QmW" } }] }

/-- Witness for C9: with no checkpoint file, an empty remote bucket makes
`get_all_cids` fail with the index error, while a one-entry bucket does
not. -/
theorem get_all_cids_bootstrap_index_witness :
    get_all_cids oracleEmpty "kleros" 3 FileState.missing =
        Except.error Err.indexError ∧
      get_all_cids oracleOne "kleros" 3 FileState.missing ≠
        Except.error Err.indexError :=
  ⟨(get_all_cids_bootstrap_index oracleEmpty "kleros" 3 FileState.missing
      sentinelPinSet rfl).1 rfl rfl,
    (get_all_cids_bootstrap_index oracleOne "kleros" 3 FileState.missing
      sentinelPinSet rfl).2 (fun _ => by simp [oracleOne])⟩
